import Mathlib

/-!
Verification development for the mlatu term-rewriting language front-end.

The repository sources under verification are `src/main.rs` (process-level
startup, file loading and dispatch into the engine thread) and the fuzz
target `fuzz/fuzz_targets/parse.rs`. The library components they call
(parser, rule-to-clause compiler, resolution engine, binary codec) are not
part of the repository snapshot, so they are modelled from the
specification; every such definition is marked `Modelled from the spec:`.
Definitions taken from `src/main.rs` cite the lines they embed.
-/

/-- Modelled from the spec: the Term data type of the mlatu core (the
`mlatu` library crate is not in the repository). A term is an atom, a
variable, or a compound of a functor and an ordered argument list. -/
inductive Term where
  | atom (a : String)
  | var (v : String)
  | comp (f : String) (args : List Term)

/-- Modelled from the spec: a Rule is a directional rewrite from a pattern
term to a replacement term. -/
structure Rule where
  pattern : Term
  replacement : Term

mutual
/-- Boolean equality on terms (structural). -/
def beqT : Term → Term → Bool
  | .atom a, .atom b => a == b
  | .var a, .var b => a == b
  | .comp f1 as, .comp f2 bs => f1 == f2 && beqL as bs
  | _, _ => false

/-- Boolean equality on term lists (structural). -/
def beqL : List Term → List Term → Bool
  | [], [] => true
  | a :: as, b :: bs => beqT a b && beqL as bs
  | _, _ => false
end

mutual
/-- Variables occurring in a term, in left-to-right order. -/
def varsT : Term → List String
  | .atom _ => []
  | .var v => [v]
  | .comp _ args => varsL args

/-- Variables occurring in a list of terms. -/
def varsL : List Term → List String
  | [] => []
  | t :: ts => varsT t ++ varsL ts
end

/-! ## Parser

Modelled from the spec (the parser lives in the `mlatu` library crate,
absent from the repository snapshot; only the fuzz target calling
`parse::rules` / `parse::terms` is present). Grammar per the spec:
whitespace-insensitive; atoms are unquoted identifiers; a compound term is
a functor followed by a parenthesized comma-separated argument list; a
rule is `pattern -> replacement` terminated by a semicolon. Identifiers
beginning with an uppercase letter denote variables, matching the spec
examples (`X`, `Y` variables; `add`, `zero`, `atom_x` atoms). The parser
is written fuel-first so that it is structurally total and evaluates by
kernel reduction. -/

namespace parse

/-- Inner-parser failure: the remaining input at the failure point plus a
message; the public entry points convert it to a `ParseError` holding a
source location. -/
structure PFail where
  rem : List Char
  msg : String

/-- Structured parse error with a source location (character offset). -/
structure ParseError where
  loc : Nat
  msg : String

def isWs (c : Char) : Bool := c == ' ' || c == '\n' || c == '\t' || c == '\r'

def isIdentChar (c : Char) : Bool := c.isAlphanum || c == '_'

def skipWs : List Char → List Char
  | [] => []
  | c :: cs => if isWs c then skipWs cs else c :: cs

def takeIdent : List Char → List Char × List Char
  | [] => ([], [])
  | c :: cs =>
    if isIdentChar c then
      let (i, r) := takeIdent cs
      (c :: i, r)
    else ([], c :: cs)

/-- An identifier denotes a variable when it starts with an uppercase
letter, an atom otherwise. -/
def identTerm (s : String) : Term :=
  match s.toList with
  | c :: _ => if c.isUpper then .var s else .atom s
  | [] => .atom s

mutual
/-- Parse one term: an identifier, optionally followed by a parenthesized
comma-separated argument list. -/
def pTerm : Nat → List Char → Except PFail (Term × List Char)
  | 0, cs => .error ⟨cs, "out of fuel"⟩
  | f+1, cs =>
    let cs1 := skipWs cs
    let (id, rest) := takeIdent cs1
    if id.isEmpty then .error ⟨cs1, "expected identifier"⟩
    else
      let name := String.mk id
      match skipWs rest with
      | '(' :: more =>
        match pArgs f more with
        | .ok (args, rem) => .ok (.comp name args, rem)
        | .error e => .error e
      | _ => .ok (identTerm name, rest)

/-- Parse a nonempty comma-separated argument list up to the closing
parenthesis. -/
def pArgs : Nat → List Char → Except PFail (List Term × List Char)
  | 0, cs => .error ⟨cs, "out of fuel"⟩
  | f+1, cs =>
    match pTerm f cs with
    | .error e => .error e
    | .ok (t, rest) =>
      match skipWs rest with
      | ',' :: more =>
        match pArgs f more with
        | .ok (ts, r) => .ok (t :: ts, r)
        | .error e => .error e
      | ')' :: more => .ok ([t], more)
      | other => .error ⟨other, "expected comma or closing parenthesis"⟩
end

/-- Parse a sequence of rules `pattern -> replacement ;` until end of
input. -/
def pRules : Nat → List Char → List Rule → Except PFail (List Rule)
  | 0, cs, _ => .error ⟨cs, "out of fuel"⟩
  | f+1, cs, acc =>
    match skipWs cs with
    | [] => .ok acc.reverse
    | cs1 =>
      match pTerm f cs1 with
      | .error e => .error e
      | .ok (lhs, rest) =>
        match skipWs rest with
        | '-' :: '>' :: more =>
          match pTerm f more with
          | .error e => .error e
          | .ok (rhs, rest2) =>
            match skipWs rest2 with
            | ';' :: more2 => pRules f more2 (⟨lhs, rhs⟩ :: acc)
            | other => .error ⟨other, "expected semicolon"⟩
        | other => .error ⟨other, "expected arrow"⟩

/-- Parse a whitespace-separated sequence of terms until end of input. -/
def pTerms : Nat → List Char → List Term → Except PFail (List Term)
  | 0, cs, _ => .error ⟨cs, "out of fuel"⟩
  | f+1, cs, acc =>
    match skipWs cs with
    | [] => .ok acc.reverse
    | cs1 =>
      match pTerm f cs1 with
      | .error e => .error e
      | .ok (t, rest) => pTerms f rest (t :: acc)

/-- Convert an inner failure to a `ParseError`: the location is the number
of characters consumed before the failure point (truncated subtraction
keeps it within the input length by construction). -/
def toParseError (n : Nat) (e : PFail) : ParseError :=
  ⟨n - e.rem.length, e.msg⟩

/-- Public entry point: parse a rule sequence from a string. -/
def rules (s : String) : Except ParseError (List Rule) :=
  match pRules (s.length + 1) s.toList [] with
  | .ok rs => .ok rs
  | .error e => .error (toParseError s.length e)

/-- Public entry point: parse a term sequence from a string. -/
def terms (s : String) : Except ParseError (List Term) :=
  match pTerms (s.length + 1) s.toList [] with
  | .ok ts => .ok ts
  | .error e => .error (toParseError s.length e)

end parse

/-! ## Rule compiler (codegen)

Modelled from the spec (`mlatu::prolog::codegen` is not in the repository
snapshot): `generate(context, rules)` produces one clause per rule encoding
"pattern reduces to replacement", renames each rule's variables freshly per
generated clause, and fails with an undefined-variable `CodegenError` when a
replacement references a variable absent from its pattern. -/

inductive CodegenError where
  | undefinedVar (v : String)

/-- Modelled from the spec: a Clause is a head term plus an ordered list of
body goals. -/
structure Clause where
  head : Term
  body : List Term

/-- Boolean equality on clauses. -/
def beqC (a b : Clause) : Bool := beqT a.head b.head && beqL a.body b.body

mutual
/-- Fresh renaming of variables for the clause generated from rule number
`i`, so identical variable names across unrelated rules never alias. -/
def renameT (i : Nat) : Term → Term
  | .atom a => .atom a
  | .var v => .var (v ++ "_" ++ toString i)
  | .comp f args => .comp f (renameL i args)

/-- Fresh renaming over a list of terms. -/
def renameL (i : Nat) : List Term → List Term
  | [] => []
  | t :: ts => renameT i t :: renameL i ts
end

/-- First variable of the replacement that does not occur in the pattern,
if any. -/
def firstBadVar (r : Rule) : Option String :=
  (varsT r.replacement).find? (fun v => !((varsT r.pattern).contains v))

/-- Modelled from the spec: compile one rule into one clause whose head
encodes "pattern rewrites to replacement", with variables freshly renamed
per clause; fails when the replacement references an undefined variable. -/
def compileRule (i : Nat) (r : Rule) : Except CodegenError Clause :=
  match firstBadVar r with
  | some v => .error (.undefinedVar v)
  | none => .ok ⟨Term.comp "rewrite" [renameT i r.pattern, renameT i r.replacement], []⟩

/-- Modelled from the spec: compile a batch of rules in order, numbering
clauses for fresh renaming; the whole batch fails on the first offending
rule. -/
def generateAux : Nat → List Rule → Except CodegenError (List Clause)
  | _, [] => .ok []
  | i, r :: rs =>
    match compileRule i r with
    | .error e => .error e
    | .ok c =>
      match generateAux (i+1) rs with
      | .error e => .error e
      | .ok cs => .ok (c :: cs)

/-- Modelled from the spec: `codegen::generate` over a batch of rules. -/
def generate (rs : List Rule) : Except CodegenError (List Clause) := generateAux 0 rs

/-! ## Resolution engine

Modelled from the spec (`mlatu::prolog` and the underlying engine are not
in the repository snapshot): a module is an ordered clause list; `assert`
inserts at the chosen end; `query` performs SLD-resolution selecting
clauses in stored order, without occurs check; termination is not
guaranteed, so the executable model is fuel-indexed (fuel exhaustion yields
no further solutions, mirroring the documented possibility of unbounded
resolution). -/

/-- Substitution: variable bindings accumulated during unification. -/
abbrev Subst := List (String × Term)

def lookupS : Subst → String → Option Term
  | [], _ => none
  | (x, t) :: rest, v => if x == v then some t else lookupS rest v

/-- Dereference a term through chained variable bindings (fuel-bounded:
binding chains may be cyclic because there is no occurs check). -/
def derefN : Nat → Subst → Term → Term
  | 0, _, t => t
  | f+1, s, t =>
    match t with
    | .var v =>
      match lookupS s v with
      | some t2 => derefN f s t2
      | none => .var v
    | t2 => t2

/-- Modelled from the spec: unification without occurs check, over a
worklist of pairs. Two compounds unify iff functor and arity match and the
argument pairs unify; an unbound variable unifies with anything, recording
a binding; a bound variable is dereferenced before comparison. -/
def unifyMany : Nat → Subst → List (Term × Term) → Option Subst
  | 0, _, _ => none
  | _+1, s, [] => some s
  | f+1, s, (a, b) :: rest =>
    match derefN (f+1) s a, derefN (f+1) s b with
    | .var x, .var y =>
      if x == y then unifyMany f s rest else unifyMany f ((x, .var y) :: s) rest
    | .var x, t => unifyMany f ((x, t) :: s) rest
    | t, .var y => unifyMany f ((y, t) :: s) rest
    | .atom x, .atom y => if x == y then unifyMany f s rest else none
    | .comp f1 as, .comp f2 bs =>
      if f1 == f2 && as.length == bs.length then unifyMany f s (as.zip bs ++ rest)
      else none
    | _, _ => none

/-- Unify two terms under a substitution. -/
def unify (fuel : Nat) (s : Subst) (a b : Term) : Option Subst :=
  unifyMany fuel s [(a, b)]

/-- Modelled from the spec: assertion position, `First` or `Last`. -/
inductive AssertLocation where
  | first
  | last

/-- Modelled from the spec: `assert` inserts the clause at the specified
end of the module's clause list. -/
def assertClause (m : List Clause) (c : Clause) : AssertLocation → List Clause
  | .first => c :: m
  | .last => m ++ [c]

/-- One resolution step: all alternatives obtained by unifying goal `g`
against the heads of the module's clauses in stored order. -/
def expand (fuel : Nat) (m : List Clause) (s : Subst) (g : Term) (gs : List Term) :
    List (Subst × List Term) :=
  m.filterMap (fun c =>
    match unify fuel s g c.head with
    | some s2 => some (s2, c.body ++ gs)
    | none => none)

/-- Modelled from the spec: depth-first SLD-resolution over a stack of
alternatives, producing solutions in backtracking order; fuel exhaustion
truncates the (possibly unbounded) search. -/
def run : Nat → List Clause → List (Subst × List Term) → List Subst
  | 0, _, _ => []
  | _+1, _, [] => []
  | f+1, m, (s, []) :: alts => s :: run f m alts
  | f+1, m, (s, g :: gs) :: alts => run f m (expand f m s g gs ++ alts)

/-- Solutions contributed by one particular clause for goal `g`: unify the
goal with the clause head, then resolve the clause body. -/
def clauseDerivs (fuel : Nat) (m : List Clause) (g : Term) (c : Clause) : List Subst :=
  match unify fuel [] g c.head with
  | some s => run fuel m [(s, c.body)]
  | none => []

/-- Modelled from the spec: `query(goal)` with each solution tagged by the
clause whose selection produced it; clauses are selected in the module's
stored order. -/
def queryTagged (fuel : Nat) (m : List Clause) (g : Term) : List (Clause × Subst) :=
  (m.map (fun c => (clauseDerivs fuel m g c).map (fun s => (c, s)))).flatten

/-! ## Engine thread bootstrap

From `src/main.rs` lines 91-103: the spawned engine thread runs
`prolog::thread` with a bootstrap closure that calls
`codegen::generate(ctx, &rules).unwrap()` and then asserts every generated
clause at `AssertLocation::Last`, each step followed by `.unwrap()`. Per
the spec, `prolog::thread` runs the bootstrap before entering the serve
loop. An `unwrap` on a codegen error panics the thread before any clause
is asserted and before the serve loop starts. -/

inductive ThreadOutcome where
  | panicked (asserted : List Clause)
  | serving (moduleCls : List Clause)

/-- The engine thread's bootstrap from `src/main.rs` lines 92-100: generate
clauses from the flattened rules; on error the `.unwrap()` panics with
nothing asserted; on success every clause is asserted at the Last position
and the serve loop is entered. -/
def engineThread (rs : List Rule) : ThreadOutcome :=
  match generate rs with
  | .error _ => .panicked []
  | .ok cs => .serving (cs.foldl (fun m c => assertClause m c .last) [])

/-! ## File loading (`src/main.rs` lines 13-49)

The loaders call external effects: `std::fs::read`, `String::from_utf8`,
`File::with_options().append(true).create(true).read(true).open`,
`read_to_end`, and the binary codec `binary::deserialize_rules` (the codec
is external per the spec: `deserialize(bytes) -> Option<sequence of
Rule>`). These effects are modelled as components of a `World` value; the
loaders' control flow and error-message construction follow the source
exactly. -/

/-- State of a path for the binary-open model: present with contents,
missing, or inaccessible (open fails, for example from permissions). -/
inductive BinFile where
  | present (bytes : List Nat)
  | missing
  | inaccessible (e : String)

/-- External effects of `src/main.rs`: text read results, UTF-8 decoding,
the binary file system, and the binary codec. -/
structure World where
  readFile : String → Except String (List Nat)
  decodeUtf8 : List Nat → Except String String
  fsBin : String → BinFile
  deserialize : List Nat → Option (List Rule)

/-- Single-quote character, used in the error messages of `src/main.rs`. -/
def quoteCh : String := String.singleton (Char.ofNat 39)

/-- Message of `src/main.rs` line 22. -/
def readErrMsg (filename e : String) : String :=
  "Error while reading " ++ quoteCh ++ filename ++ quoteCh ++ ": " ++ e

/-- Message of `src/main.rs` line 20. -/
def decodeErrMsg (filename e : String) : String :=
  "Error in decoding " ++ quoteCh ++ filename ++ quoteCh ++ ": " ++ e

/-- Display form of a parse error, as interpolated at `src/main.rs` line 18. -/
def showParseError (e : parse.ParseError) : String :=
  e.msg ++ " at " ++ toString e.loc

/-- Message of `src/main.rs` line 18. -/
def parseErrMsg (filename : String) (e : parse.ParseError) : String :=
  "Error while parsing " ++ quoteCh ++ filename ++ quoteCh ++ ": " ++ showParseError e

/-- Message of `src/main.rs` line 38. -/
def openErrMsg (filename e : String) : String :=
  "Error while opening " ++ quoteCh ++ filename ++ quoteCh ++ ": " ++ e

/-- Message of `src/main.rs` line 33 (no quotes around the filename in the
source). -/
def deserializeErrMsg (filename : String) : String :=
  "Error while deserializing " ++ filename

/-- From `src/main.rs` lines 13-24: read the file, decode UTF-8, parse
rules; each failure is turned into a message naming the file. -/
def load_text_file (w : World) (filename : String) : Except String (List Rule) :=
  match w.readFile filename with
  | .ok bytes =>
    match w.decodeUtf8 bytes with
    | .ok string =>
      match parse.rules string with
      | .ok rules => .ok rules
      | .error e => .error (parseErrMsg filename e)
    | .error e => .error (decodeErrMsg filename e)
  | .error e => .error (readErrMsg filename e)

/-- Result of the binary loader, recording the returned value, the file
system after the call, whether the open step succeeded, and the buffer
handed to the deserializer (when reached). -/
structure BinLoad where
  result : Except String (List Rule)
  fsAfter : String → BinFile
  opened : Bool
  buf : Option (List Nat)

/-- From `src/main.rs` lines 26-40: open with
`append(true).create(true).read(true)` — a missing file is created empty
rather than reported — then read the whole contents and deserialize them.
The `read_to_end` of an open file is modelled as succeeding. -/
def load_binary_file (w : World) (filename : String) : BinLoad :=
  match w.fsBin filename with
  | .inaccessible e => ⟨.error (openErrMsg filename e), w.fsBin, false, none⟩
  | .present bytes =>
    match w.deserialize bytes with
    | some rules => ⟨.ok rules, w.fsBin, true, some bytes⟩
    | none => ⟨.error (deserializeErrMsg filename), w.fsBin, true, some bytes⟩
  | .missing =>
    match w.deserialize [] with
    | some rules =>
      ⟨.ok rules, fun p => if p == filename then .present [] else w.fsBin p,
        true, some []⟩
    | none =>
      ⟨.error (deserializeErrMsg filename),
        fun p => if p == filename then .present [] else w.fsBin p, true, some []⟩

/-- Last path component (the part after the final slash). -/
def lastComp : List Char → List Char → List Char
  | cur, [] => cur.reverse
  | cur, c :: cs => if c == '/' then lastComp [] cs else lastComp (c :: cur) cs

/-- Walk the reversed file name accumulating extension characters until the
final dot; a dot that begins the file name does not start an extension
(matching `std::path::Path::extension`). -/
def extFromRev : List Char → List Char → Option String
  | _, [] => none
  | acc, '.' :: rest => if rest.isEmpty then none else some (String.mk acc)
  | acc, c :: rest => extFromRev (c :: acc) rest

/-- Model of `std::path::Path::extension`: the part of the final component
after its last dot, none when there is no dot or the only dot leads the
name. -/
def extension (p : String) : Option String :=
  extFromRev [] ((lastComp [] p.toList).reverse)

/-- Model of `std::path::PathBuf::set_extension`: replace an existing
extension, or append one. -/
def setExtension (p e : String) : String :=
  match extension p with
  | none => p ++ "." ++ e
  | some old =>
    String.mk (p.toList.take (p.toList.length - (old.length + 1)) ++ ('.' :: e.toList))

/-- Result of `load_file`: the `Ok` rules, the `Err` message, or a panic of
the process. -/
inductive LoadResult where
  | ok (rules : List Rule)
  | err (msg : String)
  | panicked

/-- From `src/main.rs` lines 42-49: dispatch on the path extension. The
source calls `path.extension().unwrap()`, so a path with no extension
panics instead of producing an error value. -/
def load_file (w : World) (filename : String) : LoadResult :=
  match extension filename with
  | none => .panicked
  | some ext =>
    if ext == "mlt" then
      match load_text_file w filename with
      | .ok rules => .ok rules
      | .error e => .err e
    else if ext == "mlb" then
      match (load_binary_file w filename).result with
      | .ok rules => .ok rules
      | .error e => .err e
    else .err ("Unrecognized file extension: " ++ ext)

/-! ## Process-level control flow (`src/main.rs` lines 51-115) -/

/-- From `src/main.rs` lines 79-85: the file list of the default mode —
`prelude.mlb` first unless `--no-prelude` is present, then the
command-line FILES in order. -/
def buildFiles (noPrelude : Bool) (args : List String) : List String :=
  (if noPrelude then [] else ["prelude.mlb"]) ++ args

/-- Outcome of sequentially loading the files, mirroring
`files.into_iter().map(load_file).collect::<Result<Vec<_>, _>>()` at
`src/main.rs` line 86: iteration stops at the first error, and a panic
aborts the process. -/
inductive CollectResult where
  | crashed
  | failed (msg : String)
  | ok (ruleSets : List (List Rule))

/-- Sequential load of the file list (`src/main.rs` line 86). -/
def collectFiles (w : World) : List String → CollectResult
  | [] => .ok []
  | f :: fs =>
    match load_file w f with
    | .panicked => .crashed
    | .err e => .failed e
    | .ok rs =>
      match collectFiles w fs with
      | .crashed => .crashed
      | .failed e => .failed e
      | .ok rss => .ok (rs :: rss)

/-- Observable outcome of the default mode: process exit code, whether an
error was reported on stderr, whether the interactive session was entered,
whether the engine thread reached its serve loop, and the clause list of
the prelude module. -/
inductive ProcOutcome where
  | crashed
  | exited (code : Nat) (reported : Bool) (interactive : Bool) (served : Bool)
      (moduleCls : List Clause)

/-- From `src/main.rs` lines 78-111 (default mode): load every file; on a
load error print it and fall through to `Ok(())` (exit code 0, no
interactive session); on success spawn the engine thread — whose bootstrap
unwraps `generate` — and enter the interactive session on the main thread
regardless of the engine thread's fate; `main` then returns `Ok(())`. The
construction of `Interactive::new` and its run are modelled as
succeeding. -/
def mainDefault (w : World) (noPrelude : Bool) (args : List String) : ProcOutcome :=
  match collectFiles w (buildFiles noPrelude args) with
  | .crashed => .crashed
  | .failed _ => .exited 0 true false false []
  | .ok rss =>
    match engineThread rss.flatten with
    | .panicked a => .exited 0 false true false a
    | .serving m => .exited 0 false true true m

/-- Observable outcome of the edit mode (`src/main.rs` lines 68-77). -/
inductive EditOutcome where
  | crashed
  | errExit (msg : String)
  | noCanon
  | ranEditor (path : String)

/-- From `src/main.rs` lines 68-77: load the file (the `?` operator turns
an `Err` into a non-zero process exit); rewrite the path's extension to
`mlb` unconditionally; canonicalize — on failure print a message and fall
through to `Ok(())`; on success run the editor on the canonical path. The
canonicalization of the surrounding file system is a parameter. -/
def mainEdit (w : World) (filename : String) (canon : String → Option String) :
    EditOutcome :=
  match load_file w filename with
  | .panicked => .crashed
  | .err e => .errExit e
  | .ok _ =>
    match canon (setExtension filename "mlb") with
    | some p => .ranEditor p
    | none => .noCanon

/-- Exit code of the edit mode, when the process exits at all: an `Err`
from `main` makes the process exit non-zero; the other non-crash outcomes
reach `Ok(())`. -/
def editExitCode : EditOutcome → Option Nat
  | .crashed => none
  | .errExit _ => some 1
  | .noCanon => some 0
  | .ranEditor _ => some 0

/-! ## Helper definitions and lemmas for the claims -/

/-- Containment of one string in another, witnessed by a decomposition. -/
def strContains (big small : String) : Prop := ∃ p s, big = p ++ small ++ s

lemma str_append_empty (s : String) : s ++ "" = s := by
  cases s with
  | mk l => show String.mk (l ++ []) = String.mk l
            rw [List.append_nil]

lemma contains_readErr (f e : String) : strContains (readErrMsg f e) f :=
  ⟨"Error while reading " ++ quoteCh, quoteCh ++ ": " ++ e, by
    simp [readErrMsg, String.append_assoc]⟩

lemma contains_decodeErr (f e : String) : strContains (decodeErrMsg f e) f :=
  ⟨"Error in decoding " ++ quoteCh, quoteCh ++ ": " ++ e, by
    simp [decodeErrMsg, String.append_assoc]⟩

lemma contains_parseErr (f : String) (e : parse.ParseError) :
    strContains (parseErrMsg f e) f :=
  ⟨"Error while parsing " ++ quoteCh, quoteCh ++ ": " ++ showParseError e, by
    simp [parseErrMsg, String.append_assoc]⟩

lemma contains_openErr (f e : String) : strContains (openErrMsg f e) f :=
  ⟨"Error while opening " ++ quoteCh, quoteCh ++ ": " ++ e, by
    simp [openErrMsg, String.append_assoc]⟩

lemma contains_deserializeErr (f : String) : strContains (deserializeErrMsg f) f :=
  ⟨"Error while deserializing ", "", by
    simp [deserializeErrMsg, String.append_assoc, str_append_empty]⟩

lemma foldl_assert_last (cs acc : List Clause) :
    cs.foldl (fun m c => assertClause m c .last) acc = acc ++ cs := by
  induction cs generalizing acc with
  | nil => simp
  | cons c cs ih =>
    rw [List.foldl_cons, ih]
    simp [assertClause]

lemma generateAux_error (rs : List Rule) (i : Nat)
    (h : ∃ r ∈ rs, (firstBadVar r).isSome) :
    ∃ e, generateAux i rs = .error e := by
  induction rs generalizing i with
  | nil => obtain ⟨r, hr, -⟩ := h; cases hr
  | cons r rs ih =>
    cases hfb : firstBadVar r with
    | some v => exact ⟨.undefinedVar v, by simp [generateAux, compileRule, hfb]⟩
    | none =>
      obtain ⟨r2, hr2, hbad⟩ := h
      cases hr2 with
      | head => simp [hfb] at hbad
      | tail _ hmem =>
        obtain ⟨e, he⟩ := ih (i+1) ⟨r2, hmem, hbad⟩
        refine ⟨e, ?_⟩
        simp [generateAux, compileRule, hfb, he]

/-- Concrete world in which every load attempt fails: text reads fail,
decoding fails, binary files are missing, and the codec rejects every
buffer. -/
def wFail : World :=
  ⟨fun _ => .error "No such file or directory",
   fun _ => .error "invalid utf-8",
   fun _ => .missing,
   fun _ => none⟩

/-- Concrete world in which every text file decodes to the fixed source
`s`; binary files are missing and the codec rejects every buffer. -/
def textWorld (s : String) : World :=
  ⟨fun _ => .ok [], fun _ => .ok s, fun _ => .missing, fun _ => none⟩

/-- Concrete world in which every binary file is present and empty, and
the codec accepts the empty buffer as the empty rule set. -/
def wEdit : World :=
  ⟨fun _ => .error "unused", fun _ => .error "unused",
   fun _ => .present [], fun _ => some []⟩

/-- A one-rule batch whose replacement references the undefined variable
`Y` (scenario B of the spec). -/
def badBatch : List Rule :=
  [⟨Term.comp "f" [Term.var "X"], Term.comp "g" [Term.var "Y"]⟩]

/-- Unit clause with head `a`, used as the First-asserted clause. -/
def caCl : Clause := ⟨Term.atom "a", []⟩

/-- Unit clause with head `b`, used as the Last-asserted clause. -/
def cbCl : Clause := ⟨Term.atom "b", []⟩

/-- Goal matching both `caCl` and `cbCl`: an unbound variable. -/
def goalG : Term := Term.var "Q"

/-- Module obtained by asserting `caCl` at First and then `cbCl` at Last,
starting from the empty module. -/
def m4 : List Clause := assertClause (assertClause [] caCl .first) cbCl .last

/-- Clause generated from the rule `a -> b ;`. -/
def clAB : Clause := ⟨Term.comp "rewrite" [Term.atom "a", Term.atom "b"], []⟩

/-- The outcome claimed for a failed startup: a non-zero exit with the
failure reported and no interactive session. -/
def abortedNonzeroNoSession : ProcOutcome → Prop
  | .crashed => False
  | .exited c r i _ _ => c ≠ 0 ∧ r = true ∧ i = false

/-! ## Claims -/

/-- Claim C3: for every input string, the parser entry points `rules` and
`terms` terminate and return either a success value or a structured
`ParseError` whose source location lies within the input; they never fail
uncontrolledly. (The entry points are total Lean functions, so termination
holds by construction.) -/
theorem claim_C3_parser_total (s : String) :
    ((∃ v, parse.rules s = .ok v) ∨
      ∃ e, parse.rules s = .error e ∧ e.loc ≤ s.length) ∧
    ((∃ v, parse.terms s = .ok v) ∨
      ∃ e, parse.terms s = .error e ∧ e.loc ≤ s.length) := by
  constructor
  · unfold parse.rules
    cases h : parse.pRules (s.length + 1) s.toList [] with
    | ok rs => exact .inl ⟨rs, rfl⟩
    | error e =>
      exact .inr ⟨parse.toParseError s.length e, rfl, Nat.sub_le _ _⟩
  · unfold parse.terms
    cases h : parse.pTerms (s.length + 1) s.toList [] with
    | ok ts => exact .inl ⟨ts, rfl⟩
    | error e =>
      exact .inr ⟨parse.toParseError s.length e, rfl, Nat.sub_le _ _⟩

/-- Claim C7: in the default mode the file list starts with the prelude
file exactly when the `no-prelude` flag is absent, followed by the
command-line rule files in order; with the flag the list is the
command-line files alone. -/
theorem claim_C7_cli_surface :
    (∀ args, buildFiles false args = "prelude.mlb" :: args) ∧
    (∀ args, buildFiles true args = args) := by
  constructor
  · intro args; rfl
  · intro args; simp [buildFiles]

/-- Claim C8: on a path whose extension is absent, `load_file` panics (the
source unwraps the `None` from `Path::extension`) instead of returning a
structured unrecognized-extension error. -/
theorem claim_C8_no_extension_panics (w : World) (f : String)
    (h : extension f = none) : load_file w f = .panicked := by
  unfold load_file
  rw [h]

/-- Witness for claim C8 at the extensionless path `rules`. -/
theorem claim_C8_witness :
    extension "rules" = none ∧ load_file wFail "rules" = .panicked :=
  ⟨rfl, claim_C8_no_extension_panics wFail "rules" rfl⟩

/-- Claim C9: on a `.mlb` path naming a missing file, `load_binary_file`
does not fail at the open step — the open with `create(true)` succeeds,
leaving an empty file at that path — and the deserializer is then run on
the empty byte buffer. -/
theorem claim_C9_create_on_missing (w : World) (f : String)
    (h : w.fsBin f = .missing) :
    (load_binary_file w f).opened = true ∧
    (load_binary_file w f).fsAfter f = .present [] ∧
    (load_binary_file w f).buf = some [] := by
  unfold load_binary_file
  rw [h]
  cases hd : w.deserialize [] <;> simp [hd]

/-- Witness for claim C9 at a missing `prelude.mlb`. -/
theorem claim_C9_witness :
    wFail.fsBin "prelude.mlb" = .missing ∧
    ((load_binary_file wFail "prelude.mlb").opened = true ∧
      (load_binary_file wFail "prelude.mlb").fsAfter "prelude.mlb" = .present [] ∧
      (load_binary_file wFail "prelude.mlb").buf = some []) :=
  ⟨rfl, claim_C9_create_on_missing wFail "prelude.mlb" rfl⟩

/-- Claim C6: every failing load — IO read failure, invalid text encoding,
malformed binary payload (including a failing open), or parse error —
produces an error message containing the offending filename; the failure
is returned as a value scoped to that one file. -/
theorem claim_C6_errors_name_file (w : World) (f m : String) :
    (load_text_file w f = .error m → strContains m f) ∧
    ((load_binary_file w f).result = .error m → strContains m f) := by
  constructor
  · intro h
    unfold load_text_file at h
    split at h
    · split at h
      · split at h
        · cases h
        · injection h with h2
          rw [← h2]
          exact contains_parseErr f _
      · injection h with h2
        rw [← h2]
        exact contains_decodeErr f _
    · injection h with h2
      rw [← h2]
      exact contains_readErr f _
  · intro h
    unfold load_binary_file at h
    split at h
    · simp only at h
      injection h with h2
      rw [← h2]
      exact contains_openErr f _
    · split at h
      · simp only at h
        cases h
      · simp only at h
        injection h with h2
        rw [← h2]
        exact contains_deserializeErr f
    · split at h
      · simp only at h
        cases h
      · simp only at h
        injection h with h2
        rw [← h2]
        exact contains_deserializeErr f

/-- Witness for claim C6: a failed text read of `r.mlt` yields a message
containing `r.mlt`. -/
theorem claim_C6_witness :
    load_text_file wFail "r.mlt" =
      .error (readErrMsg "r.mlt" "No such file or directory") ∧
    strContains (readErrMsg "r.mlt" "No such file or directory") "r.mlt" :=
  ⟨rfl, (claim_C6_errors_name_file wFail "r.mlt"
    (readErrMsg "r.mlt" "No such file or directory")).1 rfl⟩

/-- Claim C2: when some rule in the startup batch has a replacement
referencing a variable absent from its pattern, `generate` fails with a
`CodegenError`, and the engine thread panics with no clause asserted and
never begins serving requests. -/
theorem claim_C2_codegen_blocks_serving (rs : List Rule)
    (h : ∃ r ∈ rs, ∃ v ∈ varsT r.replacement,
      (varsT r.pattern).contains v = false) :
    (∃ e, generate rs = .error e) ∧ engineThread rs = .panicked [] := by
  have h2 : ∃ r ∈ rs, (firstBadVar r).isSome := by
    obtain ⟨r, hr, v, hv, hcon⟩ := h
    refine ⟨r, hr, ?_⟩
    unfold firstBadVar
    rw [List.find?_isSome]
    exact ⟨v, hv, by simpa using hcon⟩
  obtain ⟨e, he⟩ := generateAux_error rs 0 h2
  have hg : generate rs = .error e := he
  refine ⟨⟨e, hg⟩, ?_⟩
  unfold engineThread
  rw [hg]

/-- Witness for claim C2 at the batch `f(X) -> g(Y) ;` of scenario B. -/
theorem claim_C2_witness :
    (∃ e, generate badBatch = .error e) ∧ engineThread badBatch = .panicked [] :=
  claim_C2_codegen_blocks_serving badBatch
    ⟨⟨Term.comp "f" [Term.var "X"], Term.comp "g" [Term.var "Y"]⟩,
      by simp [badBatch], "Y", by simp [varsT, varsL], by simp [varsT, varsL]⟩

/-- Claim C5: when every rule file loads successfully and clause
generation succeeds, the engine thread asserts exactly the generated
clauses, in order, at the Last position of the prelude module, and only
then serves; the file list places the prelude first, then the
command-line files in order. -/
theorem claim_C5_startup_asserts_in_order (w : World) (npre : Bool)
    (args : List String) (rss : List (List Rule)) (cs : List Clause)
    (h1 : collectFiles w (buildFiles npre args) = .ok rss)
    (h2 : generate rss.flatten = .ok cs) :
    mainDefault w npre args = .exited 0 false true true cs ∧
    ∀ args2, buildFiles false args2 = "prelude.mlb" :: args2 := by
  constructor
  · simp only [mainDefault, h1, engineThread, h2, foldl_assert_last,
      List.nil_append]
  · intro args2; rfl

/-- Witness for claim C5: loading the single file `x.mlt` with source
`a -> b ;` ends with exactly its one generated clause asserted and the
serve loop reached. -/
theorem claim_C5_witness :
    mainDefault (textWorld "a -> b ;") true ["x.mlt"] =
      .exited 0 false true true [clAB] :=
  (claim_C5_startup_asserts_in_order (textWorld "a -> b ;") true ["x.mlt"]
    [[⟨Term.atom "a", Term.atom "b"⟩]] [clAB] rfl rfl).1

/-- Claim C1 counterexample: in the default mode with a failing prelude
load, the process reports the failure and enters no interactive session,
but exits with status zero — refuting the claimed non-zero exit. -/
theorem claim_C1_counterexample :
    mainDefault wFail false [] = .exited 0 true false false [] ∧
    ¬ abortedNonzeroNoSession (mainDefault wFail false []) := by
  have h : mainDefault wFail false [] = .exited 0 true false false [] := rfl
  refine ⟨h, ?_⟩
  rw [h]
  rintro ⟨hc, -, -⟩
  exact hc rfl

/-- Claim C1 as amended: a load failure in the default mode is reported
and prevents the interactive session and the serve loop, but the process
exits with status zero; a codegen failure in the default mode panics the
engine thread before serving while the interactive session is still
entered and the exit status is zero; only in the edit mode does a load
failure exit non-zero without any session. -/
theorem claim_C1_amended_thm :
    (∀ w npre args e, collectFiles w (buildFiles npre args) = .failed e →
        mainDefault w npre args = .exited 0 true false false []) ∧
    (∀ w npre args rss ce, collectFiles w (buildFiles npre args) = .ok rss →
        generate rss.flatten = .error ce →
        mainDefault w npre args = .exited 0 false true false []) ∧
    (∀ w f canon e, load_file w f = .err e →
        mainEdit w f canon = .errExit e ∧
        editExitCode (mainEdit w f canon) = some 1) := by
  refine ⟨?_, ?_, ?_⟩
  · intro w npre args e h
    unfold mainDefault
    rw [h]
  · intro w npre args rss ce h1 h2
    simp only [mainDefault, h1, engineThread, h2]
  · intro w f canon e h
    unfold mainEdit
    rw [h]
    exact ⟨rfl, rfl⟩

/-- Witness for the amended claim C1 at three concrete startups: a failed
default-mode load, a default-mode codegen failure, and a failed edit-mode
load. -/
theorem claim_C1_amended_witness :
    mainDefault wFail false [] = .exited 0 true false false [] ∧
    mainDefault (textWorld "f(X) -> g(Y) ;") true ["x.mlt"] =
      .exited 0 false true false [] ∧
    (mainEdit wFail "x.mlt" some =
        .errExit (readErrMsg "x.mlt" "No such file or directory") ∧
      editExitCode (mainEdit wFail "x.mlt" some) = some 1) :=
  ⟨claim_C1_amended_thm.1 wFail false []
      (deserializeErrMsg "prelude.mlb") rfl,
    claim_C1_amended_thm.2.1 (textWorld "f(X) -> g(Y) ;") true ["x.mlt"]
      [[⟨Term.comp "f" [Term.var "X"], Term.comp "g" [Term.var "Y"]⟩]]
      (.undefinedVar "Y") rfl rfl,
    claim_C1_amended_thm.2.2 wFail "x.mlt" some
      (readErrMsg "x.mlt" "No such file or directory") rfl⟩

/-- Claim C4 counterexample: with `caCl` asserted First and `cbCl`
asserted Last, both matching the goal, the query yields the
First-asserted clause's derivation first — the Last-asserted clause's
derivation does not come strictly before it. -/
theorem claim_C4_counterexample :
    queryTagged 4 m4 goalG =
      [(caCl, [("Q", Term.atom "a")]), (cbCl, [("Q", Term.atom "b")])] ∧
    ¬ ((queryTagged 4 m4 goalG).findIdx (fun p => beqC p.1 cbCl) <
        (queryTagged 4 m4 goalG).findIdx (fun p => beqC p.1 caCl)) :=
  ⟨rfl, by decide⟩

/-- Claim C4 as amended: with C1 asserted at First and C2 at Last in the
same module, `query(G)` yields every derivation selected through C1
strictly before every derivation selected through C2: the solution list
is C1's derivations followed by C2's. -/
theorem claim_C4_amended_thm (fuel : Nat) (g : Term) (c1 c2 : Clause) :
    queryTagged fuel (assertClause (assertClause [] c1 .first) c2 .last) g =
      (clauseDerivs fuel (assertClause (assertClause [] c1 .first) c2 .last) g c1).map
          (fun s => (c1, s)) ++
        (clauseDerivs fuel (assertClause (assertClause [] c1 .first) c2 .last) g c2).map
          (fun s => (c2, s)) := by
  simp [queryTagged, assertClause]

/-- Claim C10: in the edit mode, once the input file loads, the editor
path is always the input path with its extension rewritten to `mlb`, and
a failed canonicalization prints a message and still exits with status
zero. -/
theorem claim_C10_edit_path (w : World) (f : String) (rs : List Rule)
    (canon : String → Option String) (hload : load_file w f = .ok rs) :
    (∀ p, canon (setExtension f "mlb") = some p →
        mainEdit w f canon = .ranEditor p) ∧
    (canon (setExtension f "mlb") = none →
        mainEdit w f canon = .noCanon ∧
        editExitCode (mainEdit w f canon) = some 0) := by
  constructor
  · intro p hp
    unfold mainEdit
    rw [hload, hp]
  · intro hn
    have hme : mainEdit w f canon = .noCanon := by
      unfold mainEdit
      rw [hload, hn]
    refine ⟨hme, ?_⟩
    rw [hme]
    rfl

/-- Witness for claim C10: editing the loadable binary file `t.mlb` with
a failing canonicalization ends in the message-and-exit-zero outcome. -/
theorem claim_C10_witness :
    load_file wEdit "t.mlb" = .ok [] ∧
    (mainEdit wEdit "t.mlb" (fun _ => none) = .noCanon ∧
      editExitCode (mainEdit wEdit "t.mlb" (fun _ => none)) = some 0) :=
  ⟨rfl, (claim_C10_edit_path wEdit "t.mlb" [] (fun _ => none) rfl).2 rfl⟩
